import Mathlib

/-!
Verification of the crossmist IPC/spawn core against its specification.

The Rust sources are shallowly embedded: machine words (`usize`) become
natural numbers reduced modulo `2 ^ 64`, byte streams become lists of
naturals, OS calls that may fail are given explicit error oracles, and
Rust `Result` becomes `Except IOError`.  Definitions come first, theorems
follow.
-/

/-- Error kinds of `std::io::ErrorKind` that the embedded code distinguishes. -/
inductive ErrKind where
  | other
  | unexpectedEof
  deriving DecidableEq

/-- An embedded `std::io::Error`: a kind together with a message. -/
structure IOError where
  kind : ErrKind
  msg : String
  deriving DecidableEq

/-! ## Relocatable pointers (src/relocation.rs) -/

/-- Width of a machine word: addresses and `usize` live below `2 ^ 64`. -/
def wordSize : Nat := 2 ^ 64

/-- `usize::wrapping_sub` on machine words below `wordSize`. -/
def wrappingSub (a b : Nat) : Nat := (a + (wordSize - b % wordSize)) % wordSize

/-- `usize::wrapping_add` on machine words. -/
def wrappingAdd (a b : Nat) : Nat := (a + b) % wordSize

/-- `RelocatablePtr::serialize_self_non_trivial`: the wire form of a code
pointer at address `p` is `(p as usize).wrapping_sub(base)` where `base` is
the address of the singleton static `BASE_ADDRESS`. -/
def serializeRelocatablePtr (base p : Nat) : Nat := wrappingSub p base

/-- `RelocatablePtr::deserialize_self_non_trivial`: read the machine word
`off` and return the pointer `base.wrapping_add(off)`. -/
def deserializeRelocatablePtr (base off : Nat) : Nat := wrappingAdd base off

/-! ## Windows spawn path (src/platform/windows/subprocess.rs, `_spawn_child`)

The per-handle cloexec ("do not inherit") flags are a function from handle
numbers to `Bool`.  The fallible OS calls `is_cloexec`, `disable_cloexec`
and `enable_cloexec` are given error oracles mapping each handle to the
error the call would raise, `none` meaning success. -/

/-- The loop before `CreateProcessW`: for each inherited handle, if its
cloexec flag is set, record it in `enabled_handles` and clear the flag.
`iErr h` / `dErr h` are the errors `is_cloexec` / `disable_cloexec` would
raise on handle `h`; either aborts the loop (the Rust `?`).  Returns the
updated flags, the `enabled_handles` list, and the first error if any. -/
def disableLoop (iErr dErr : Nat → Option IOError) (flags : Nat → Bool) :
    List Nat → ((Nat → Bool) × List Nat × Option IOError)
  | [] => (flags, [], none)
  | h :: t =>
    match iErr h with
    | some e => (flags, [], some e)
    | none =>
      if flags h then
        match dErr h with
        | some e => (flags, [h], some e)
        | none =>
          let r := disableLoop iErr dErr (fun x => if x = h then false else flags x) t
          (r.1, h :: r.2.1, r.2.2)
      else disableLoop iErr dErr flags t

/-- The loop after `CreateProcessW`: `enable_cloexec` on every handle in
`enabled_handles`, in order; an error aborts the loop (the Rust `?`),
leaving the remaining handles untouched.  Returns the updated flags and the
first error if any. -/
def restoreLoop (eErr : Nat → Option IOError) (flags : Nat → Bool) :
    List Nat → ((Nat → Bool) × Option IOError)
  | [] => (flags, none)
  | h :: t =>
    match eErr h with
    | some e => (flags, some e)
    | none => restoreLoop eErr (fun x => if x = h then true else flags x) t

/-- Outcome of `_spawn_child` on Windows: the final cloexec flags and the
returned `Result` (success meaning a process handle was produced). -/
structure SpawnOut where
  flags : Nat → Bool
  result : Except IOError Unit

/-- `_spawn_child` (Windows), from the point where the inherited-handle
list is complete: run the disable loop (early return on error), attempt
`CreateProcessW` (`createErr = none` means it succeeded), run the restore
loop, propagate a restore error first, and only then propagate
`CreateProcessW` failure via `res.ok()?`. -/
def spawnChildWin (flags : Nat → Bool) (hs : List Nat)
    (iErr dErr eErr : Nat → Option IOError) (createErr : Option IOError) :
    SpawnOut :=
  let d := disableLoop iErr dErr flags hs
  match d.2.2 with
  | some e => ⟨d.1, .error e⟩
  | none =>
    let r := restoreLoop eErr d.1 d.2.1
    match r.2 with
    | some e => ⟨r.1, .error e⟩
    | none =>
      match createErr with
      | some e => ⟨r.1, .error e⟩
      | none => ⟨r.1, .ok ()⟩

/-! ## Child::join, Child::new and KillHandle::kill (src/asynchronous.rs;
src/platform/unix/subprocess.rs; src/platform/windows/subprocess.rs) -/

/-- `nix::sys::wait::WaitStatus` as observed by `waitpid` in the POSIX
`Child::join`. -/
inductive WaitStatusU where
  | exited (pid : Nat) (code : Nat)
  | signaled (pid : Nat) (sig : Nat)
  | stopped (pid : Nat) (sig : Nat)
  deriving DecidableEq

/-- The Rust `Debug` rendering of a `WaitStatus`, interpolated into the
join error message by `format!("... {:?}", status)`. -/
def waitStatusDebug : WaitStatusU → String
  | .exited pid code =>
      "Exited(Pid(" ++ toString pid ++ "), " ++ toString code ++ ")"
  | .signaled pid sig =>
      "Signaled(Pid(" ++ toString pid ++ "), " ++ toString sig ++ ", false)"
  | .stopped pid sig =>
      "Stopped(Pid(" ++ toString pid ++ "), " ++ toString sig ++ ")"

/-- The test `if let WaitStatus::Exited(_, 0) = status`. -/
def isCleanExit : WaitStatusU → Bool
  | .exited _ 0 => true
  | _ => false

/-- Observable events of one `join` execution, for the temporal claims:
the `recv` on `output_rx` returning, the write to the shared `may_kill`
flag under its mutex, and the process wait
(`waitpid` / `WaitForSingleObject`). -/
inductive Ev where
  | recvDone
  | setMayKill (b : Bool)
  | wait
  deriving DecidableEq

/-- Inputs of one POSIX `Child::join` execution: the outcome of
`output_rx.recv()`, the value of `imp::if_void::<T>()` (`some` exactly when
`T` is the unit type), and the outcome of `waitpid`. -/
structure JoinEnvUnix (T : Type) where
  recvResult : Except IOError (Option T)
  ifVoid : Option T
  waitResult : Except IOError WaitStatusU

/-- `Child::join` (src/asynchronous.rs, unix cfg; identical value logic in
src/platform/unix/subprocess.rs): receive a value (`?` propagates a recv
error), substitute the unit value if `T` is unit, clear `may_kill` under
the mutex, `waitpid` (`?` propagates), then resolve the result from the
wait status.  Returns the `Result` and the trace of observable events. -/
def joinAsyncUnix {T : Type} (env : JoinEnvUnix T) :
    Except IOError T × List Ev :=
  match env.recvResult with
  | .error e => (.error e, [.recvDone])
  | .ok v0 =>
    let value := match env.ifVoid with
      | some u => some u
      | none => v0
    match env.waitResult with
    | .error e => (.error e, [.recvDone, .setMayKill false, .wait])
    | .ok status =>
      (if isCleanExit status then
        match value with
        | some x => .ok x
        | none =>
          .error ⟨.other, "The subprocess terminated without returning a value"⟩
      else
        .error ⟨.other,
          "The subprocess did not terminate successfully: " ++
            waitStatusDebug status⟩,
      [.recvDone, .setMayKill false, .wait])

/-- Inputs of one Windows `Child::join` execution: the recv outcome, the
`if_void` value, and the exit code obtained through `WaitForSingleObject`
plus `GetExitCodeProcess` (the error case covers both a failed wait,
surfacing `last_os_error`, and a failed `GetExitCodeProcess`). -/
structure JoinEnvWin (T : Type) where
  recvResult : Except IOError (Option T)
  ifVoid : Option T
  waitResult : Except IOError Nat

/-- `Child::join` (src/asynchronous.rs, windows cfg; identical value logic
in src/platform/windows/subprocess.rs): receive, substitute unit, clear
`may_kill`, wait for the process and fetch its exit code, then resolve. -/
def joinAsyncWin {T : Type} (env : JoinEnvWin T) :
    Except IOError T × List Ev :=
  match env.recvResult with
  | .error e => (.error e, [.recvDone])
  | .ok v0 =>
    let value := match env.ifVoid with
      | some u => some u
      | none => v0
    match env.waitResult with
    | .error e => (.error e, [.recvDone, .setMayKill false, .wait])
    | .ok code =>
      (if code = 0 then
        match value with
        | some x => .ok x
        | none =>
          .error ⟨.other, "The subprocess terminated without returning a value"⟩
      else
        .error ⟨.other,
          "The subprocess terminated with exit code " ++ toString code⟩,
      [.recvDone, .setMayKill false, .wait])

/-- The model of a `Child` as far as the kill protocol is concerned:
`Child::new` stores `Arc::new(Mutex::new(true))` in `may_kill`. -/
structure ChildModel where
  mayKill : Bool

/-- `Child::new`: the `may_kill` flag begins `true`. -/
def childNew : ChildModel := ⟨true⟩

/-- The shared `may_kill` flag after a `join` execution: `join` writes
`false` to it exactly when its trace contains that write; no other code
ever writes the flag. -/
def mayKillAfterJoin {T : Type} (env : JoinEnvUnix T) : Bool :=
  if Ev.setMayKill false ∈ (joinAsyncUnix env).2 then false else true

/-- A kill syscall the model can issue. -/
inductive KillAction where
  | sigkill (pid : Nat)
  | terminateProcess (exitCode : Nat)
  deriving DecidableEq

/-- The error built by `std::io::Error::other("This process has already
been joined")`. -/
def alreadyJoinedError : IOError :=
  ⟨.other, "This process has already been joined"⟩

/-- `KillHandle::kill` (unix cfg): lock `may_kill`; if it is false return
the already-joined error without issuing any kill; otherwise send `SIGKILL`
to the pid (`osErr` is the error `kill_process` would raise).  Returns the
list of kill syscalls issued and the `Result`.  The guard itself is never
written by `kill`. -/
def killHandleKillUnix (mayKill : Bool) (pid : Nat) (osErr : Option IOError) :
    List KillAction × Except IOError Unit :=
  if mayKill then
    match osErr with
    | some e => ([.sigkill pid], .error e)
    | none => ([.sigkill pid], .ok ())
  else ([], .error alreadyJoinedError)

/-- `KillHandle::kill` (windows cfg): same guard, then
`TerminateProcess(handle, 1)`. -/
def killHandleKillWin (mayKill : Bool) (osErr : Option IOError) :
    List KillAction × Except IOError Unit :=
  if mayKill then
    match osErr with
    | some e => ([.terminateProcess 1], .error e)
    | none => ([.terminateProcess 1], .ok ())
  else ([], .error alreadyJoinedError)

/-- A sequence of `kill` calls through any number of `KillHandle`s of one
child.  The `may_kill` guard is read by every call and written by none of
them (only `join` writes it), so it stays constant across the sequence. -/
def killSeqUnix (mayKill : Bool) (pid : Nat) :
    List (Option IOError) → List (List KillAction × Except IOError Unit)
  | [] => []
  | o :: t => killHandleKillUnix mayKill pid o :: killSeqUnix mayKill pid t

/-! ## Typed channels, Windows async path (src/asynchronous.rs) -/

/-- `std::mem::size_of::<usize>()` on the 64-bit targets modelled here. -/
def usizeSize : Nat := 8

/-- `usize::to_ne_bytes` (little-endian, as on the supported targets). -/
def toNeBytes (n : Nat) : List Nat :=
  (List.range usizeSize).map (fun i => n / 256 ^ i % 256)

/-- `usize::from_ne_bytes` on a little-endian byte list. -/
def fromNeBytes (bs : List Nat) : Nat :=
  bs.foldr (fun b acc => acc * 256 + b) 0

/-- `Sender::send` (windows cfg, `implements!(T: PlainOldData)` branch):
the wire frame is the native-endian `usize` byte length of the value
followed by the raw bytes of the value, nothing else. -/
def sendPodWin (valueBytes : List Nat) : List Nat :=
  toNeBytes valueBytes.length ++ valueBytes

/-- `AsyncStream::read` of an exact byte count from a modelled stream:
either the buffer is filled completely or the read fails with
`UnexpectedEof`.  Returns the bytes read and the remaining stream. -/
def readExact (stream : List Nat) (n : Nat) :
    Except IOError (List Nat × List Nat) :=
  if n ≤ stream.length then .ok (stream.take n, stream.drop n)
  else .error ⟨.unexpectedEof, "failed to fill whole buffer"⟩

/-- `Receiver::recv` (windows cfg): read the `usize` length prefix,
mapping an `UnexpectedEof` error on that read to `Ok(None)` and any other
error to `Err`; then, on the POD path, read exactly `size_of::<T>()` bytes
into a zero-initialized buffer and reinterpret them (a value is modelled by
its byte list), and on the non-POD path read `len` bytes and deserialize
them; either payload read propagates its error via `?`. -/
def recvWin (pod : Bool) (tSize : Nat) (stream : List Nat) :
    Except IOError (Option (List Nat)) :=
  match readExact stream usizeSize with
  | .error e => if e.kind = .unexpectedEof then .ok none else .error e
  | .ok (lenBytes, rest) =>
    let len := fromNeBytes lenBytes
    if pod then
      match readExact rest tSize with
      | .error e => .error e
      | .ok (payload, _) => .ok (some payload)
    else
      match readExact rest len with
      | .error e => .error e
      | .ok (payload, _) => .ok (some payload)

/-- `Duplex::request`: `send(value)` then `recv()`, each `?`-propagating
its error; `Ok(Some(r))` becomes `Ok(r)` and `Ok(None)` becomes the
`UnexpectedEof` error built in the source.  The two outcomes parameterize
the model; when `send` fails, `recv` is never reached. -/
def requestModel (R : Type) (sendRes : Except IOError Unit)
    (recvRes : Except IOError (Option R)) : Except IOError R :=
  match sendRes with
  | .error e => .error e
  | .ok _ =>
    match recvRes with
    | .error e => .error e
    | .ok (some r) => .ok r
    | .ok none =>
      .error ⟨.unexpectedEof,
        "The subprocess exitted before responding to the request"⟩

/-- Concrete join input for the C3 counterexample: return type is unit
(`ifVoid = some ()`), the child exited with status 0, but the `recv` on
`output_rx` failed. -/
def envC3 : JoinEnvUnix Unit :=
  ⟨.error ⟨.other, "recv failed"⟩, some (), .ok (.exited 1 0)⟩

/-- Concrete join input for the C6 witness: a child that sent the value 5
and exited cleanly. -/
def envC6 : JoinEnvUnix Nat := ⟨.ok (some 5), none, .ok (.exited 1 0)⟩

/-! ## Theorems -/

/-- Claim C1: for every code pointer `p` and anchor address `base` (both
machine words), serializing `p` as a `RelocatablePtr` and deserializing the
resulting word in the same process yields `p` again, including when `p` lies
below the anchor (a wrapping, "negative" offset). -/
theorem relocatablePtr_roundtrip (base p : Nat) (hb : base < wordSize)
    (hp : p < wordSize) :
    deserializeRelocatablePtr base (serializeRelocatablePtr base p) = p := by
  unfold deserializeRelocatablePtr serializeRelocatablePtr wrappingAdd wrappingSub wordSize
  unfold wordSize at hb hp
  omega

/-- Claim C1 witness: a concrete pointer below the anchor round-trips. -/
theorem relocatablePtr_roundtrip_witness :
    deserializeRelocatablePtr 1000 (serializeRelocatablePtr 1000 5) = 5 :=
  relocatablePtr_roundtrip 1000 5 (by norm_num [wordSize]) (by norm_num [wordSize])

/-- The restore loop only ever sets flags; a flag that is true stays true. -/
theorem restoreLoop_preserves_true (eErr : Nat → Option IOError)
    (flags : Nat → Bool) (en : List Nat) (x : Nat) (hx : flags x = true) :
    (restoreLoop eErr flags en).1 x = true := by
  induction en generalizing flags with
  | nil => exact hx
  | cons h t ih =>
    simp only [restoreLoop]
    cases eErr h with
    | some e => exact hx
    | none =>
      exact ih (fun y => if y = h then true else flags y) (by
        by_cases hyx : x = h <;> simp [hyx, hx])

/-- If the restore loop finishes without error, every handle in
`enabled_handles` ends with its cloexec flag set. -/
theorem restoreLoop_restores (eErr : Nat → Option IOError)
    (flags : Nat → Bool) (en : List Nat)
    (hok : (restoreLoop eErr flags en).2 = none) (x : Nat) (hx : x ∈ en) :
    (restoreLoop eErr flags en).1 x = true := by
  induction en generalizing flags with
  | nil => cases hx
  | cons h t ih =>
    simp only [restoreLoop] at hok ⊢
    cases heErr : eErr h with
    | some e => simp [heErr] at hok
    | none =>
      simp only [heErr]
      cases List.mem_cons.mp hx with
      | inl hxh =>
        exact restoreLoop_preserves_true eErr _ t x (by simp [hxh])
      | inr hxt =>
        exact ih (fun y => if y = h then true else flags y)
          (by simpa [heErr] using hok) hxt

/-- If the disable loop finishes without error, every inherited handle whose
cloexec flag was set is recorded in `enabled_handles`. -/
theorem disableLoop_collects (iErr dErr : Nat → Option IOError)
    (flags : Nat → Bool) (hs : List Nat)
    (hok : (disableLoop iErr dErr flags hs).2.2 = none) (x : Nat)
    (hx : x ∈ hs) (hflag : flags x = true) :
    x ∈ (disableLoop iErr dErr flags hs).2.1 := by
  induction hs generalizing flags with
  | nil => cases hx
  | cons h t ih =>
    simp only [disableLoop] at hok ⊢
    cases hiErr : iErr h with
    | some e => simp [hiErr] at hok
    | none =>
      simp only [hiErr] at hok ⊢
      cases hfh : flags h with
      | true =>
        simp only [hfh, if_true] at hok ⊢
        cases hdErr : dErr h with
        | some e => simp [hdErr] at hok
        | none =>
          simp only [hdErr] at hok ⊢
          by_cases hxh : x = h
          · simp [hxh]
          · have hxt : x ∈ t := by
              cases List.mem_cons.mp hx with
              | inl h1 => exact absurd h1 hxh
              | inr h2 => exact h2
            exact List.mem_cons_of_mem h
              (ih (fun y => if y = h then false else flags y) hok hxt
                (by simp [hxh, hflag]))
      | false =>
        simp only [hfh, if_false] at hok ⊢
        have hxt : x ∈ t := by
          cases List.mem_cons.mp hx with
          | inl h1 => rw [h1, hfh] at hflag; cases hflag
          | inr h2 => exact h2
        exact ih flags hok hxt hflag

/-- Claim C2: in every execution of the Windows `_spawn_child` that reaches
the `CreateProcessW` attempt (the disable loop raised no error), and
whatever that attempt's outcome `createErr`: (a) if the restore loop raises
no error, then every inherited handle whose cloexec flag was set before the
call has it set again when `_spawn_child` returns; and (b) if the restore
loop raises an error `e`, `_spawn_child` returns `e` to the caller even
when `CreateProcessW` itself succeeded. -/
theorem spawnChildWin_cloexec_restored (flags : Nat → Bool) (hs : List Nat)
    (iErr dErr eErr : Nat → Option IOError) (createErr : Option IOError)
    (hatt : (disableLoop iErr dErr flags hs).2.2 = none) :
    ((restoreLoop eErr (disableLoop iErr dErr flags hs).1
        (disableLoop iErr dErr flags hs).2.1).2 = none →
      ∀ h ∈ hs, flags h = true →
        (spawnChildWin flags hs iErr dErr eErr createErr).flags h = true) ∧
    (∀ e, (restoreLoop eErr (disableLoop iErr dErr flags hs).1
        (disableLoop iErr dErr flags hs).2.1).2 = some e →
      (spawnChildWin flags hs iErr dErr eErr createErr).result = .error e) := by
  constructor
  · intro hrok h hmem hflag
    have hcol := disableLoop_collects iErr dErr flags hs hatt h hmem hflag
    have hres := restoreLoop_restores eErr (disableLoop iErr dErr flags hs).1
      (disableLoop iErr dErr flags hs).2.1 hrok h hcol
    simp only [spawnChildWin, hatt]
    cases createErr <;> simp_all
  · intro e hre
    simp only [spawnChildWin, hatt]
    cases createErr <;> simp_all

/-- Claim C2 witness: a concrete run with two handles, handle 3 having
cloexec set beforehand, `CreateProcessW` succeeding and no OS errors;
handle 3 ends with cloexec set. -/
theorem spawnChildWin_cloexec_restored_witness :
    (spawnChildWin (fun h => h = 3) [3, 4] (fun _ => none) (fun _ => none)
      (fun _ => none) none).flags 3 = true := by
  have h := spawnChildWin_cloexec_restored (fun h => h = 3) [3, 4]
    (fun _ => none) (fun _ => none) (fun _ => none) none (by decide)
  exact h.1 (by decide) 3 (by decide) (by decide)

/-- Claim C3 counterexample: with return type unit and the child exited
with status 0, a failing `recv` on `output_rx` makes `join` return that
error, not `Ok(())`: the claim's "for every recv outcome" fails on the
error outcome. -/
theorem joinUnix_unit_recvError_not_ok :
    (joinAsyncUnix envC3).1 = Except.error ⟨ErrKind.other, "recv failed"⟩ ∧
    (joinAsyncUnix envC3).1 ≠ Except.ok () := by
  constructor
  · rfl
  · intro hc
    have h : Except.error (ε := IOError) ⟨ErrKind.other, "recv failed"⟩ =
        Except.ok () := by
      calc Except.error (ε := IOError) ⟨ErrKind.other, "recv failed"⟩
          = (joinAsyncUnix envC3).1 := rfl
        _ = Except.ok () := hc
    exact Except.noConfusion h

/-- Claim C3 (amended): when the child exits with status 0, `join`
resolves the result from the `recv` outcome as follows: if `T` is the unit
type, every successful recv outcome (`Ok(Some _)` and `Ok(None)`) yields
`Ok(unit)`; if `T` is not unit and nothing was received, the
terminated-without-returning-a-value error; if a value was received, that
value; and a recv error is propagated as-is (it is not converted to
`Ok(())` even for unit). -/
theorem joinUnix_clean_exit_resolution (T : Type) (env : JoinEnvUnix T)
    (status : WaitStatusU) (hw : env.waitResult = .ok status)
    (hclean : isCleanExit status = true) :
    (∀ u v0, env.ifVoid = some u → env.recvResult = .ok v0 →
      (joinAsyncUnix env).1 = .ok u) ∧
    (env.ifVoid = none → env.recvResult = .ok none →
      (joinAsyncUnix env).1 =
        .error ⟨.other, "The subprocess terminated without returning a value"⟩) ∧
    (∀ v, env.ifVoid = none → env.recvResult = .ok (some v) →
      (joinAsyncUnix env).1 = .ok v) ∧
    (∀ e, env.recvResult = .error e → (joinAsyncUnix env).1 = .error e) := by
  refine ⟨?_, ?_, ?_, ?_⟩
  · intro u v0 hvoid hr
    simp [joinAsyncUnix, hr, hvoid, hw, hclean]
  · intro hvoid hr
    simp [joinAsyncUnix, hr, hvoid, hw, hclean]
  · intro v hvoid hr
    simp [joinAsyncUnix, hr, hvoid, hw, hclean]
  · intro e hr
    simp [joinAsyncUnix, hr]

/-- Claim C3 witness: a non-unit child that sent 7 and exited cleanly
joins to `Ok(7)`. -/
theorem joinUnix_clean_exit_resolution_witness :
    (joinAsyncUnix (⟨.ok (some 7), none, .ok (.exited 2 0)⟩ :
      JoinEnvUnix Nat)).1 = .ok 7 := by
  have h := joinUnix_clean_exit_resolution Nat
    ⟨.ok (some 7), none, .ok (.exited 2 0)⟩ (.exited 2 0) rfl rfl
  exact h.2.2.1 7 rfl rfl

/-- Claim C4: whenever `join` reaches the process wait (the receive
returned `Ok`) and the wait status is anything other than a clean exit
with status 0, `join` returns an error whose message contains the observed
status (POSIX: the `Debug` rendering of the `WaitStatus`; Windows: the
exit code), and in particular for an exit with code `c` the message
contains the decimal rendering of `c`. -/
theorem join_nonzero_status_error :
    (∀ (T : Type) (env : JoinEnvUnix T) (v : Option T) (status : WaitStatusU),
      env.recvResult = .ok v → env.waitResult = .ok status →
      isCleanExit status = false →
      ∃ e, (joinAsyncUnix env).1 = .error e ∧
        (waitStatusDebug status).data <:+: e.msg.data ∧
        ∀ pid code, status = .exited pid code →
          (toString code).data <:+: e.msg.data) ∧
    (∀ (T : Type) (env : JoinEnvWin T) (v : Option T) (code : Nat),
      env.recvResult = .ok v → env.waitResult = .ok code → code ≠ 0 →
      ∃ e, (joinAsyncWin env).1 = .error e ∧
        (toString code).data <:+: e.msg.data) := by
  constructor
  · intro T env v status hr hw hclean
    refine ⟨⟨ErrKind.other,
      "The subprocess did not terminate successfully: " ++
        waitStatusDebug status⟩, ?_, ?_, ?_⟩
    · simp [joinAsyncUnix, hr, hw, hclean]
    · exact ⟨("The subprocess did not terminate successfully: ").data, [],
        by simp [String.data_append]⟩
    · intro pid code hst
      subst hst
      refine ⟨("The subprocess did not terminate successfully: " ++
        "Exited(Pid(" ++ toString pid ++ "), ").data, (")").data, ?_⟩
      simp [waitStatusDebug, String.data_append, List.append_assoc]
  · intro T env v code hr hw hcode
    refine ⟨⟨ErrKind.other,
      "The subprocess terminated with exit code " ++ toString code⟩, ?_, ?_⟩
    · simp [joinAsyncWin, hr, hw, hcode]
    · exact ⟨("The subprocess terminated with exit code ").data, [],
        by simp [String.data_append]⟩

/-- Claim C4 witness: a child that exited with code 7 (having sent
nothing) joins to an error whose message contains "7". -/
theorem join_nonzero_status_error_witness :
    ∃ e, (joinAsyncUnix (⟨.ok none, some (), .ok (.exited 9 7)⟩ :
        JoinEnvUnix Unit)).1 = .error e ∧
      (toString 7).data <:+: e.msg.data := by
  obtain ⟨e, he, _, hcode⟩ := join_nonzero_status_error.1 Unit
    ⟨.ok none, some (), .ok (.exited 9 7)⟩ none (.exited 9 7) rfl rfl rfl
  exact ⟨e, he, hcode 9 7 rfl⟩

/-- The trace of one `join` execution: either `recv` failed and the
execution stops there, or the flag write and the wait follow it. -/
theorem joinAsyncUnix_trace_shape (T : Type) (env : JoinEnvUnix T) :
    (joinAsyncUnix env).2 = [Ev.recvDone] ∨
    (joinAsyncUnix env).2 = [Ev.recvDone, Ev.setMayKill false, Ev.wait] := by
  rcases henv : env.recvResult with e | v0
  · left
    simp [joinAsyncUnix, henv]
  · right
    rcases hw : env.waitResult with e | status
    · simp [joinAsyncUnix, henv, hw]
    · simp [joinAsyncUnix, henv, hw]

/-- Claim C5: `KillHandle::kill` checks the shared `may_kill` guard first:
when the guard is false it returns the already-joined error and issues no
kill syscall; when the guard is true it sends `SIGKILL` (POSIX) or calls
`TerminateProcess` with exit code 1 (Windows); and once a `join` execution
has cleared the guard, every subsequent `kill` through any `KillHandle` of
that child is refused with the already-joined error. -/
theorem killHandle_kill_guard :
    (∀ pid osErr,
      killHandleKillUnix false pid osErr = ([], .error alreadyJoinedError)) ∧
    (∀ osErr, killHandleKillWin false osErr = ([], .error alreadyJoinedError)) ∧
    (∀ pid,
      killHandleKillUnix true pid none = ([KillAction.sigkill pid], .ok ())) ∧
    (killHandleKillWin true none = ([KillAction.terminateProcess 1], .ok ())) ∧
    (∀ (T : Type) (env : JoinEnvUnix T) (pid : Nat)
        (oracles : List (Option IOError)),
      Ev.setMayKill false ∈ (joinAsyncUnix env).2 →
      ∀ out ∈ killSeqUnix (mayKillAfterJoin env) pid oracles,
        out = ([], .error alreadyJoinedError)) := by
  refine ⟨?_, ?_, ?_, ?_, ?_⟩
  · intro pid osErr
    simp [killHandleKillUnix]
  · intro osErr
    simp [killHandleKillWin]
  · intro pid
    simp [killHandleKillUnix]
  · simp [killHandleKillWin]
  · intro T env pid oracles hmem out hout
    have hflag : mayKillAfterJoin env = false := by
      simp [mayKillAfterJoin, hmem]
    rw [hflag] at hout
    induction oracles with
    | nil => cases hout
    | cons o t ih =>
      simp only [killSeqUnix] at hout
      rcases List.mem_cons.mp hout with h1 | h2
      · rw [h1]
        simp [killHandleKillUnix]
      · exact ih h2

/-- Claim C5 witness: after a clean join of a child that returned 5, a
kill attempt is refused with the already-joined error. -/
theorem killHandle_kill_guard_witness :
    ∀ out ∈ killSeqUnix (mayKillAfterJoin envC6) 42 [none],
      out = ([], .error alreadyJoinedError) :=
  killHandle_kill_guard.2.2.2.2 Nat envC6 42 [none] (by decide)

/-- Claim C6: a `Child` is created with `may_kill = true`; no `join`
execution ever writes `true` to the flag; every write of `false` to the
flag happens strictly after the receive on `output_rx` completed and
strictly before the process wait; and whenever the wait is performed, the
flag was cleared before it. -/
theorem join_mayKill_clear_ordering :
    childNew.mayKill = true ∧
    (∀ (T : Type) (env : JoinEnvUnix T),
      Ev.setMayKill true ∉ (joinAsyncUnix env).2) ∧
    (∀ (T : Type) (env : JoinEnvUnix T) (i : Nat),
      ((joinAsyncUnix env).2).get? i = some (Ev.setMayKill false) →
      (∃ j, j < i ∧ ((joinAsyncUnix env).2).get? j = some Ev.recvDone) ∧
      (∀ k, ((joinAsyncUnix env).2).get? k = some Ev.wait → i < k)) ∧
    (∀ (T : Type) (env : JoinEnvUnix T) (k : Nat),
      ((joinAsyncUnix env).2).get? k = some Ev.wait →
      ∃ i, i < k ∧ ((joinAsyncUnix env).2).get? i = some (Ev.setMayKill false)) := by
  refine ⟨rfl, ?_, ?_, ?_⟩
  · intro T env
    rcases joinAsyncUnix_trace_shape T env with h | h <;> rw [h] <;> decide
  · intro T env i hi
    rcases joinAsyncUnix_trace_shape T env with h | h <;> rw [h] at hi ⊢
    · rcases i with _ | i
      · exact absurd hi (by decide)
      · exact absurd hi (Option.noConfusion)
    · rcases i with _ | _ | _ | i
      · exact absurd hi (by decide)
      · refine ⟨⟨0, by omega, rfl⟩, ?_⟩
        intro k hk
        rcases k with _ | _ | _ | k
        · exact absurd hk (by decide)
        · exact absurd hk (by decide)
        · omega
        · exact absurd hk (Option.noConfusion)
      · exact absurd hi (by decide)
      · exact absurd hi (Option.noConfusion)
  · intro T env k hk
    rcases joinAsyncUnix_trace_shape T env with h | h <;> rw [h] at hk ⊢
    · rcases k with _ | k
      · exact absurd hk (by decide)
      · exact absurd hk (Option.noConfusion)
    · rcases k with _ | _ | _ | k
      · exact absurd hk (by decide)
      · exact absurd hk (by decide)
      · exact ⟨1, by omega, rfl⟩
      · exact absurd hk (Option.noConfusion)

/-- Claim C6 witness: in the trace of a clean join, the flag clear sits at
index 1, after the receive and before the wait at index 2. -/
theorem join_mayKill_clear_ordering_witness :
    ∃ i, i < 2 ∧ ((joinAsyncUnix envC6).2).get? i = some (Ev.setMayKill false) :=
  join_mayKill_clear_ordering.2.2.2 Nat envC6 2 rfl

/-- Claim C7 counterexample: a stream that hits end-of-stream after 3 of
the 8 length-prefix bytes (the frame has begun) makes `recv` return
`Ok(None)`, not an error: the code maps every `UnexpectedEof` of the
prefix read to `Ok(None)`. -/
theorem recvWin_partial_prefix_ok_none :
    recvWin false 4 [1, 2, 3] = Except.ok none ∧
    (recvWin false 4 [1, 2, 3]).isOk = true := ⟨rfl, rfl⟩

/-- Claim C7 (amended): `recv` returns `Ok(None)` whenever end-of-stream
occurs before the 8-byte length prefix is complete — at the exact frame
boundary, but also after part of the prefix was consumed — and returns an
`UnexpectedEof` error when end-of-stream occurs within the payload bytes
(on both the POD and the non-POD path). -/
theorem recvWin_eof_behavior :
    (∀ (pod : Bool) (tSize : Nat) (stream : List Nat),
      List.length stream < usizeSize → recvWin pod tSize stream = .ok none) ∧
    (∀ (tSize : Nat) (stream : List Nat),
      usizeSize ≤ List.length stream →
      List.length stream < usizeSize + tSize →
      recvWin true tSize stream =
        .error ⟨.unexpectedEof, "failed to fill whole buffer"⟩) ∧
    (∀ (tSize : Nat) (stream : List Nat),
      usizeSize ≤ List.length stream →
      List.length stream < usizeSize + fromNeBytes (List.take usizeSize stream) →
      recvWin false tSize stream =
        .error ⟨.unexpectedEof, "failed to fill whole buffer"⟩) := by
  refine ⟨?_, ?_, ?_⟩
  · intro pod tSize stream h
    have h1 : ¬ usizeSize ≤ List.length stream := by omega
    simp [recvWin, readExact, h1]
  · intro tSize stream h1 h2
    have h3 : ¬ tSize ≤ stream.length - usizeSize := by omega
    simp [recvWin, readExact, h1, h3]
  · intro tSize stream h1 h2
    have h3 : ¬ fromNeBytes (List.take usizeSize stream) ≤
        stream.length - usizeSize := by omega
    simp [recvWin, readExact, h1, h3]

/-- Claim C7 witness: a frame announcing 4 payload bytes of which only 2
arrive before end-of-stream makes `recv` fail with `UnexpectedEof`. -/
theorem recvWin_eof_behavior_witness :
    recvWin true 4 (toNeBytes 4 ++ [1, 2]) =
      .error ⟨.unexpectedEof, "failed to fill whole buffer"⟩ :=
  recvWin_eof_behavior.2.1 4 (toNeBytes 4 ++ [1, 2]) (by decide) (by decide)

/-- Claim C8: `Duplex::request` performs `send` then `recv`, propagating an
error of either; `Ok(Some(r))` becomes `Ok(r)`, and `Ok(None)` — the peer
closed before responding — becomes an `UnexpectedEof` error whose message
says the subprocess exited before responding to the request. -/
theorem duplex_request_behavior (R : Type) (e : IOError) (r : R)
    (recvRes : Except IOError (Option R)) :
    requestModel R (.error e) recvRes = .error e ∧
    requestModel R (.ok ()) (.error e) = .error e ∧
    requestModel R (.ok ()) (.ok (some r)) = .ok r ∧
    ∃ er, requestModel R (.ok ()) (.ok none) = .error er ∧
      er.kind = .unexpectedEof ∧
      er.msg = "The subprocess exitted before responding to the request" := by
  refine ⟨rfl, rfl, rfl, ⟨.unexpectedEof,
    "The subprocess exitted before responding to the request"⟩, rfl, rfl, rfl⟩

/-- Claim C9: for a 16-byte POD value, the Windows POD fast path of
`Sender::send` emits exactly the native-endian `usize` length prefix
followed by the 16 raw value bytes: `size_of::<usize>() + 16` bytes in
total, with no additional framing or heap-serialized data. -/
theorem sendPodWin_frame_size (vb : List Nat) (hlen : List.length vb = 16) :
    sendPodWin vb = toNeBytes 16 ++ vb ∧
    List.length (sendPodWin vb) = usizeSize + 16 := by
  constructor
  · rw [sendPodWin, hlen]
  · simp [sendPodWin, toNeBytes, hlen]

/-- Claim C9 witness: a concrete 16-byte value yields a 24-byte frame. -/
theorem sendPodWin_frame_size_witness :
    List.length (sendPodWin (List.range 16)) = usizeSize + 16 :=
  (sendPodWin_frame_size (List.range 16) (by simp)).2

/-- Claim C10: the Windows POD receive path reads the `usize` length
prefix but never compares it to `size_of::<T>()`: whatever length `L` the
frame announces, `recv` reads exactly `tSize` payload bytes and returns
them reinterpreted, reporting no serialization failure, and the result
depends only on the first `tSize` payload bytes. -/
theorem recvWinPod_ignores_len (tSize L : Nat) (payload : List Nat)
    (hp : tSize ≤ List.length payload) :
    recvWin true tSize (toNeBytes L ++ payload) =
      .ok (some (List.take tSize payload)) := by
  have hlen : (toNeBytes L).length = usizeSize := by
    simp [toNeBytes]
  have h1 : usizeSize ≤ (toNeBytes L).length + List.length payload := by
    omega
  have htake : List.take usizeSize (toNeBytes L ++ payload) = toNeBytes L :=
    List.take_left' hlen
  have hdrop : List.drop usizeSize (toNeBytes L ++ payload) = payload :=
    List.drop_left' hlen
  simp [recvWin, readExact, h1, htake, hdrop, hp]

/-- Claim C10 witness: a frame announcing length 99 but carrying 5 payload
bytes is received as the first 4 bytes when `size_of::<T>() = 4`, with no
error. -/
theorem recvWinPod_ignores_len_witness :
    recvWin true 4 (toNeBytes 99 ++ [1, 2, 3, 4, 5]) =
      .ok (some [1, 2, 3, 4]) := by
  have h := recvWinPod_ignores_len 4 99 [1, 2, 3, 4, 5] (by norm_num)
  simpa using h
